import Mathlib

/-!
Verification development for the compressed-video republishing tool
(`tools/camerastream/compressed_vipc3.py` and `compressed_vipc4.py`).

The per-stream worker `decoder` is embedded as a step function over an
explicit `StreamState` (the Python locals `cnt`, `last_idx`, `seen_iframe`,
`time_q`) that consumes one `Packet` per iteration of the inner
`for evt in msgs` loop and emits an ordered trace of observable events
(debug logs, header/data submissions to the codec, publishes to the
shared bus, forwards to the display sink).

External effects are modelled as packet fields:
  * `decodedFrames` is the oracle for `codec.decode(av.packet.Packet(evta.data))`
    (each frame already flattened to its `yuv420p` byte list, as produced by
    `to_ndarray(...).flatten()`),
  * `recvMono` is `int(time.monotonic()*1e9)` at receipt (the value appended
    to `time_q`, already scaled to nanoseconds),
  * `pubMono` is `int(time.monotonic()*1e9)` at the publish call,
  * `wallTime` is `time.time()` (seconds) during this iteration.

Pure float latency computations (`network_latency`, `frame_latency`,
`process_latency`, `pc_latency`) feed only a debug `print` and touch no
state, so they are not modelled.  The interactive `cv2.waitKey` quit path
and `time.sleep` are real-time concerns outside the embedding: runs model
executions in which the user does not press `q`.
-/

def V4L2_BUF_FLAG_KEYFRAME : Nat := 8

/-- One delivered event (`evta = getattr(evt, evt.which())`) of the encode
socket, together with the oracles for the external calls made while
processing it. -/
structure Packet where
  encodeId : Nat
  flags : Nat
  header : List Nat
  data : List Nat
  decodedFrames : List (List Nat)
  recvMono : Nat
  pubMono : Nat
  wallTime : ℚ
deriving DecidableEq

/-- The mutable locals of `decoder` in `compressed_vipc3.py`. -/
structure StreamState where
  cnt : Nat
  last_idx : Int
  seen_iframe : Bool
  time_q : List Nat
deriving DecidableEq

/-- Initial values: `cnt = 0`, `last_idx = -1`, `seen_iframe = False`,
`time_q = []`. -/
def initState : StreamState :=
  { cnt := 0, last_idx := -1, seen_iframe := false, time_q := [] }

/-- Observable events of one worker loop, in program order. -/
inductive Event where
  | dropPacketLog
  | waitingLog
  | submitHeader (bytes : List Nat)
  | decodeData (bytes : List Nat)
  | dropSurfaceLog
  | publish (payload : List Nat) (idx : Nat) (captureNs : Nat) (publishNs : Nat)
  | forwardDisplay (payload : List Nat) (wall : ℚ)
deriving DecidableEq

/-- Reasons the worker can die inside one iteration: the
`assert len(frames) == 1` failing, or an `IndexError` from reading
`time_q[0]` on an empty list. -/
inductive AbortKind where
  | assertFailed
  | emptyQueue
deriving DecidableEq

/-- Result of running some iterations: either the worker is still alive in
state `s`, or it aborted. -/
inductive Outcome (σ : Type) where
  | ok (s : σ)
  | aborted (k : AbortKind)
deriving DecidableEq

/-- `numpy.ravel('F')` on a 2×n array, i.e. the U/V interleaving
`u0, v0, u1, v1, …` produced by `.reshape(2, -1).ravel('F')`. -/
def interleaveF {α : Type} : List α → List α → List α
  | a :: as, b :: bs => a :: b :: interleaveF as bs
  | _, _ => []

/-- The bus-packing step of `decoder`:
`uv_offset = H*W; y = img[:uv_offset]; uv = img[uv_offset:].reshape(2, -1).ravel('F'); np.hstack((y, uv))`. -/
def packFrame (W H : Nat) (img : List Nat) : List Nat :=
  let uv_offset := H * W
  let y := img.take uv_offset
  let uv := img.drop uv_offset
  y ++ interleaveF (uv.take (uv.length / 2)) (uv.drop (uv.length / 2))

/-- The slicing `xs[0::2]` (every other element starting at index 0), as
used on the chroma region in `extract_image`
(`buf.data[buf.uv_offset::2]` / `buf.data[buf.uv_offset+1::2]`). -/
def everyOther {α : Type} : List α → List α
  | [] => []
  | [a] => [a]
  | a :: _ :: rest => a :: everyOther rest

/-- `if debug and evta.idx.encodeId != 0 and evta.idx.encodeId != (last_idx + 1): print("DROP PACKET!")`. -/
def gapLog (debug : Bool) (last_idx : Int) (p : Packet) : List Event :=
  if debug && (p.encodeId != 0) && ((p.encodeId : Int) != last_idx + 1) then
    [Event.dropPacketLog]
  else []

/-- One iteration of the `for evt in msgs` body of `decoder` in
`compressed_vipc3.py` (this variant shows every published frame with
`cv2.imshow`, with no throttling). -/
def decoderStep3 (W H : Nat) (debug : Bool) (s : StreamState) (p : Packet) :
    Outcome StreamState × List Event :=
  let gl := gapLog debug s.last_idx p
  if !s.seen_iframe && (p.flags &&& V4L2_BUF_FLAG_KEYFRAME == 0) then
    (Outcome.ok { s with last_idx := (p.encodeId : Int) },
      gl ++ if debug then [Event.waitingLog] else [])
  else
    let tq := s.time_q ++ [p.recvMono]
    let hdr : List Event := if !s.seen_iframe then [Event.submitHeader p.header] else []
    let evs := gl ++ hdr ++ [Event.decodeData p.data]
    match p.decodedFrames with
    | [] =>
        (Outcome.ok { s with last_idx := (p.encodeId : Int), seen_iframe := true, time_q := tq },
          evs ++ if debug then [Event.dropSurfaceLog] else [])
    | [f] =>
        if tq = [] then
          (Outcome.aborted AbortKind.emptyQueue, evs)
        else
          let payload := packFrame W H f
          (Outcome.ok { cnt := s.cnt + 1, last_idx := (p.encodeId : Int),
                        seen_iframe := true, time_q := tq.tail },
            evs ++ [Event.publish payload s.cnt (tq.headD 0) p.pubMono,
                    Event.forwardDisplay payload p.wallTime])
    | _ :: _ :: _ => (Outcome.aborted AbortKind.assertFailed, evs)

/-- Running `decoder` of `compressed_vipc3.py` over a list of packets,
collecting the event trace; an abort stops the run (the Python process
dies), keeping the events emitted so far. -/
def decoderRun3 (W H : Nat) (debug : Bool) : StreamState → List Packet → Outcome StreamState × List Event
  | s, [] => (Outcome.ok s, [])
  | s, p :: ps =>
    match decoderStep3 W H debug s p with
    | (Outcome.ok s', evs) =>
        let r := decoderRun3 W H debug s' ps
        (r.1, evs ++ r.2)
    | (Outcome.aborted k, evs) => (Outcome.aborted k, evs)

/-- The keyframe test `evta.idx.flags & V4L2_BUF_FLAG_KEYFRAME` (truthiness
of the masked value). -/
def isKey (p : Packet) : Bool :=
  p.flags &&& V4L2_BUF_FLAG_KEYFRAME != 0

/-- The publishes of a trace: arguments of each
`vipc_server.send(vst, payload, cnt, capture_ns, publish_ns)` call, in
order, as `(payload, frame index, capture time, publish time)`. -/
def publishesOf (t : List Event) : List (List Nat × Nat × Nat × Nat) :=
  t.filterMap fun e =>
    match e with
    | Event.publish payload i cap pub => some (payload, i, cap, pub)
    | _ => none

/-- Wall-clock times of the forwards to the display/inference sink. -/
def forwardTimes (t : List Event) : List ℚ :=
  t.filterMap fun e =>
    match e with
    | Event.forwardDisplay _ w => some w
    | _ => none

def Event.isHeaderEv : Event → Bool
  | Event.submitHeader _ => true
  | _ => false

def Event.isDecodeEv : Event → Bool
  | Event.decodeData _ => true
  | _ => false

def Event.isPublishEv : Event → Bool
  | Event.publish _ _ _ _ => true
  | _ => false

def Event.isGapLogEv : Event → Bool
  | Event.dropPacketLog => true
  | _ => false

/-- Events that are pure stdout diagnostics (no decoder/bus interaction). -/
def Event.isLogEv : Event → Bool
  | Event.dropPacketLog => true
  | Event.waitingLog => true
  | Event.dropSurfaceLog => true
  | _ => false

/-- The mutable locals of `decoder` in `compressed_vipc4.py`: the same as
the vipc3 variant plus `last_capture_time` (seconds, from `time.time()`). -/
structure StreamState4 where
  cnt : Nat
  last_idx : Int
  seen_iframe : Bool
  time_q : List Nat
  last_capture_time : ℚ
deriving DecidableEq

/-- One iteration of the `for evt in msgs` body of `decoder` in
`compressed_vipc4.py`.  The differences from `decoderStep3`: the forward
to the display/inference queue is guarded by
`if current_time - last_capture_time >= 1` (which then sets
`last_capture_time = current_time`), it happens before the
`vipc_server.send` call, its payload is the color conversion of the
decoded frame (modelled as the frame itself), and there is no per-frame
`cv2.imshow`. -/
def decoderStep4 (W H : Nat) (debug : Bool) (s : StreamState4) (p : Packet) :
    Outcome StreamState4 × List Event :=
  let gl := gapLog debug s.last_idx p
  if !s.seen_iframe && (p.flags &&& V4L2_BUF_FLAG_KEYFRAME == 0) then
    (Outcome.ok { s with last_idx := (p.encodeId : Int) },
      gl ++ if debug then [Event.waitingLog] else [])
  else
    let tq := s.time_q ++ [p.recvMono]
    let hdr : List Event := if !s.seen_iframe then [Event.submitHeader p.header] else []
    let evs := gl ++ hdr ++ [Event.decodeData p.data]
    match p.decodedFrames with
    | [] =>
        (Outcome.ok { s with last_idx := (p.encodeId : Int), seen_iframe := true, time_q := tq },
          evs ++ if debug then [Event.dropSurfaceLog] else [])
    | [f] =>
        let doCapture := 1 ≤ p.wallTime - s.last_capture_time
        let fwd : List Event := if doCapture then [Event.forwardDisplay f p.wallTime] else []
        let lc := if doCapture then p.wallTime else s.last_capture_time
        if tq = [] then
          (Outcome.aborted AbortKind.emptyQueue, evs ++ fwd)
        else
          let payload := packFrame W H f
          (Outcome.ok { cnt := s.cnt + 1, last_idx := (p.encodeId : Int),
                        seen_iframe := true, time_q := tq.tail, last_capture_time := lc },
            evs ++ fwd ++ [Event.publish payload s.cnt (tq.headD 0) p.pubMono])
    | _ :: _ :: _ => (Outcome.aborted AbortKind.assertFailed, evs)

/-- Running `decoder` of `compressed_vipc4.py` over a list of packets. -/
def decoderRun4 (W H : Nat) (debug : Bool) : StreamState4 → List Packet → Outcome StreamState4 × List Event
  | s, [] => (Outcome.ok s, [])
  | s, p :: ps =>
    match decoderStep4 W H debug s p with
    | (Outcome.ok s', evs) =>
        let r := decoderRun4 W H debug s' ps
        (r.1, evs ++ r.2)
    | (Outcome.aborted k, evs) => (Outcome.aborted k, evs)

/-- `gapsFrom b ws` says each wall-clock time in `ws` is at least one
second after its predecessor (with `b` before the first): the
at-most-once-per-second throttle. -/
def gapsFrom : ℚ → List ℚ → Prop
  | _, [] => True
  | b, w :: ws => b + 1 ≤ w ∧ gapsFrom w ws

lemma everyOther_interleaveF {α : Type} : ∀ (u v : List α), u.length = v.length →
    everyOther (interleaveF u v) = u
  | [], [], _ => rfl
  | [], _ :: _, h => by simp at h
  | _ :: _, [], h => by simp at h
  | a :: as, b :: bs, h => by
    simp only [interleaveF, everyOther]
    rw [everyOther_interleaveF as bs (by simpa using h)]

lemma everyOther_tail_interleaveF {α : Type} : ∀ (u v : List α), u.length = v.length →
    everyOther (interleaveF u v).tail = v
  | [], [], _ => rfl
  | [], _ :: _, h => by simp at h
  | _ :: _, [], h => by simp at h
  | a :: as, b :: bs, h => by
    match as, bs with
    | [], [] => rfl
    | [], _ :: _ => simp at h
    | _ :: _, [] => simp at h
    | a' :: as', b' :: bs' =>
      have ih := everyOther_tail_interleaveF (a' :: as') (b' :: bs') (by simpa using h)
      simp only [interleaveF, List.tail_cons] at ih ⊢
      simp only [everyOther]
      rw [ih]

lemma packFrame_planar (W H : Nat) (y u v : List Nat)
    (hy : y.length = H * W) (huv : u.length = v.length) :
    packFrame W H (y ++ u ++ v) = y ++ interleaveF u v := by
  unfold packFrame
  dsimp only
  rw [List.append_assoc, ← hy, List.take_left, List.drop_left]
  have h2 : (u ++ v).length / 2 = u.length := by
    simp only [List.length_append, ← huv]
    omega
  rw [h2, List.take_left, List.drop_left]

/-- C6: the bus-packing step writes the full-resolution luma plane followed
by the U/V samples interleaved with U first, and slicing the packed bytes
as `extract_image` does (`[uv_offset::2]` and `[uv_offset+1::2]` with
`uv_offset = H*W`) recovers the original U and V planes exactly. -/
theorem bus_packing_roundtrip (W H : Nat) (y u v : List Nat)
    (hy : y.length = H * W) (huv : u.length = v.length) :
    packFrame W H (y ++ u ++ v) = y ++ interleaveF u v ∧
    (packFrame W H (y ++ u ++ v)).take (H * W) = y ∧
    everyOther ((packFrame W H (y ++ u ++ v)).drop (H * W)) = u ∧
    everyOther ((packFrame W H (y ++ u ++ v)).drop (H * W + 1)) = v := by
  have hpack := packFrame_planar W H y u v hy huv
  refine ⟨hpack, ?_, ?_, ?_⟩
  · rw [hpack, ← hy, List.take_left]
  · rw [hpack, ← hy, List.drop_left]
    exact everyOther_interleaveF u v huv
  · rw [hpack, ← List.tail_drop, ← hy, List.drop_left]
    exact everyOther_tail_interleaveF u v huv

theorem bus_packing_roundtrip_witness :
    ([10, 20, 30, 40] : List Nat).length = 2 * 2 ∧
    ([7] : List Nat).length = ([9] : List Nat).length ∧
    (packFrame 2 2 ([10, 20, 30, 40] ++ [7] ++ [9]) = [10, 20, 30, 40] ++ interleaveF [7] [9] ∧
     (packFrame 2 2 ([10, 20, 30, 40] ++ [7] ++ [9])).take (2 * 2) = [10, 20, 30, 40] ∧
     everyOther ((packFrame 2 2 ([10, 20, 30, 40] ++ [7] ++ [9])).drop (2 * 2)) = [7] ∧
     everyOther ((packFrame 2 2 ([10, 20, 30, 40] ++ [7] ++ [9])).drop (2 * 2 + 1)) = [9]) :=
  ⟨by decide, by decide,
   bus_packing_roundtrip 2 2 [10, 20, 30, 40] [7] [9] (by decide) (by decide)⟩

lemma decoderStep3_fst_ne_emptyQueue (W H : Nat) (d : Bool) (s : StreamState) (p : Packet) :
    (decoderStep3 W H d s p).1 ≠ Outcome.aborted AbortKind.emptyQueue := by
  unfold decoderStep3
  split
  · simp
  · rcases hf : p.decodedFrames with _ | ⟨f, _ | ⟨g, gs⟩⟩ <;> simp [hf]

/-- C8: the worker never reads `time_q[0]` on an empty queue — in every
iteration that reaches the publish, the receipt timestamp of the current
packet was appended earlier in the same iteration, so the `IndexError`
abort is unreachable from any state; the queue is popped (`time_q[1:]`)
only in the publish branch. -/
theorem time_q_never_read_empty (W H : Nat) (d : Bool) (s : StreamState) (ps : List Packet) :
    (decoderRun3 W H d s ps).1 ≠ Outcome.aborted AbortKind.emptyQueue := by
  induction ps generalizing s with
  | nil => simp [decoderRun3]
  | cons p ps ih =>
    have hstep := decoderStep3_fst_ne_emptyQueue W H d s p
    unfold decoderRun3
    cases h : decoderStep3 W H d s p with
    | mk o evs =>
      rw [h] at hstep
      cases o with
      | ok s' => simpa using ih s'
      | aborted k => simpa using hstep

lemma accept_cond (s : StreamState) (p : Packet)
    (hacc : s.seen_iframe = true ∨ isKey p = true) :
    (!s.seen_iframe && (p.flags &&& V4L2_BUF_FLAG_KEYFRAME == 0)) = false := by
  rcases hacc with h | h
  · simp [h]
  · simp only [isKey, bne_iff_ne, ne_eq] at h
    simp [h]

lemma decoderStep3_discard (W H : Nat) (d : Bool) (s : StreamState) (p : Packet)
    (hseen : s.seen_iframe = false) (hkey : isKey p = false) :
    decoderStep3 W H d s p =
      (Outcome.ok { s with last_idx := (p.encodeId : Int) },
       gapLog d s.last_idx p ++ if d then [Event.waitingLog] else []) := by
  have h0 : p.flags &&& V4L2_BUF_FLAG_KEYFRAME = 0 := by
    simpa [isKey] using hkey
  unfold decoderStep3
  rw [if_pos (by simp [hseen, h0])]

lemma decoderStep3_accept_nil (W H : Nat) (d : Bool) (s : StreamState) (p : Packet)
    (hacc : s.seen_iframe = true ∨ isKey p = true) (hz : p.decodedFrames = []) :
    decoderStep3 W H d s p =
      (Outcome.ok { s with last_idx := (p.encodeId : Int), seen_iframe := true,
                           time_q := s.time_q ++ [p.recvMono] },
       gapLog d s.last_idx p ++
         (if !s.seen_iframe then [Event.submitHeader p.header] else []) ++
         [Event.decodeData p.data] ++
         if d then [Event.dropSurfaceLog] else []) := by
  unfold decoderStep3
  rw [if_neg (by rw [accept_cond s p hacc]; simp)]
  rw [hz]

lemma decoderStep3_accept_one (W H : Nat) (d : Bool) (s : StreamState) (p : Packet) (f : List Nat)
    (hacc : s.seen_iframe = true ∨ isKey p = true) (hz : p.decodedFrames = [f]) :
    decoderStep3 W H d s p =
      (Outcome.ok { cnt := s.cnt + 1, last_idx := (p.encodeId : Int), seen_iframe := true,
                    time_q := (s.time_q ++ [p.recvMono]).tail },
       gapLog d s.last_idx p ++
         (if !s.seen_iframe then [Event.submitHeader p.header] else []) ++
         [Event.decodeData p.data,
          Event.publish (packFrame W H f) s.cnt ((s.time_q ++ [p.recvMono]).headD 0) p.pubMono,
          Event.forwardDisplay (packFrame W H f) p.wallTime]) := by
  unfold decoderStep3
  rw [if_neg (by rw [accept_cond s p hacc]; simp)]
  rw [hz]
  simp

lemma decoderStep3_accept_many (W H : Nat) (d : Bool) (s : StreamState) (p : Packet)
    (f g : List Nat) (fs : List (List Nat))
    (hacc : s.seen_iframe = true ∨ isKey p = true) (hz : p.decodedFrames = f :: g :: fs) :
    decoderStep3 W H d s p =
      (Outcome.aborted AbortKind.assertFailed,
       gapLog d s.last_idx p ++
         (if !s.seen_iframe then [Event.submitHeader p.header] else []) ++
         [Event.decodeData p.data]) := by
  unfold decoderStep3
  rw [if_neg (by rw [accept_cond s p hacc]; simp)]
  rw [hz]

lemma decoderRun3_cons_ok (W H : Nat) (d : Bool) (s s' : StreamState) (p : Packet)
    (ps : List Packet) (evs : List Event)
    (h : decoderStep3 W H d s p = (Outcome.ok s', evs)) :
    decoderRun3 W H d s (p :: ps) =
      ((decoderRun3 W H d s' ps).1, evs ++ (decoderRun3 W H d s' ps).2) := by
  simp [decoderRun3, h]

lemma decoderRun3_cons_aborted (W H : Nat) (d : Bool) (s : StreamState) (p : Packet)
    (ps : List Packet) (k : AbortKind) (evs : List Event)
    (h : decoderStep3 W H d s p = (Outcome.aborted k, evs)) :
    decoderRun3 W H d s (p :: ps) = (Outcome.aborted k, evs) := by
  simp [decoderRun3, h]

@[simp] lemma publishesOf_nil : publishesOf [] = [] := rfl

@[simp] lemma publishesOf_append (a b : List Event) :
    publishesOf (a ++ b) = publishesOf a ++ publishesOf b := by
  simp [publishesOf]

@[simp] lemma publishesOf_gapLog (d : Bool) (l : Int) (p : Packet) :
    publishesOf (gapLog d l p) = [] := by
  unfold gapLog; split <;> rfl

@[simp] lemma publishesOf_waiting_ite (c : Prop) [Decidable c] :
    publishesOf (if c then [Event.waitingLog] else []) = [] := by
  split <;> rfl

@[simp] lemma publishesOf_dropSurface_ite (c : Prop) [Decidable c] :
    publishesOf (if c then [Event.dropSurfaceLog] else []) = [] := by
  split <;> rfl

@[simp] lemma publishesOf_hdr_ite (c : Prop) [Decidable c] (bs : List Nat) :
    publishesOf (if c then [Event.submitHeader bs] else []) = [] := by
  split <;> rfl

@[simp] lemma publishesOf_cons_decode (bs : List Nat) (t : List Event) :
    publishesOf (Event.decodeData bs :: t) = publishesOf t := rfl

@[simp] lemma publishesOf_cons_publish (pl : List Nat) (i cap pub : Nat) (t : List Event) :
    publishesOf (Event.publish pl i cap pub :: t) = (pl, i, cap, pub) :: publishesOf t := rfl

@[simp] lemma publishesOf_cons_forward (pl : List Nat) (w : ℚ) (t : List Event) :
    publishesOf (Event.forwardDisplay pl w :: t) = publishesOf t := rfl

/-- The value of `last_idx` after observing a list of packets (each
iteration does `last_idx = evta.idx.encodeId` unconditionally). -/
def lastIdAfter (l : Int) (ps : List Packet) : Int :=
  ps.foldl (fun _ p => (p.encodeId : Int)) l

lemma lastIdAfter_cons (l : Int) (p : Packet) (ps : List Packet) :
    lastIdAfter l (p :: ps) = lastIdAfter (p.encodeId : Int) ps := rfl

lemma gapLog_log (d : Bool) (l : Int) (p : Packet) :
    ∀ e ∈ gapLog d l p, e.isLogEv = true := by
  unfold gapLog
  split
  · intro e he
    simp only [List.mem_singleton] at he
    subst he
    rfl
  · intro e he
    simp at he

lemma countP_eq_zero_of (l : List Event) (pr : Event → Bool)
    (h : ∀ e ∈ l, pr e = false) : l.countP pr = 0 := by
  rw [List.countP_eq_zero]
  intro a ha
  simp [h a ha]

/-- While `seen_iframe` is false, packets without the keyframe flag are
dropped with at most a couple of log lines, and only `last_idx` changes. -/
lemma run3_sync_skip (W H : Nat) (d : Bool) (s : StreamState) (ps : List Packet)
    (hseen : s.seen_iframe = false) (hall : ∀ p ∈ ps, isKey p = false) :
    (decoderRun3 W H d s ps).1 =
      Outcome.ok { s with last_idx := lastIdAfter s.last_idx ps } ∧
    ∀ e ∈ (decoderRun3 W H d s ps).2, e.isLogEv = true := by
  induction ps generalizing s with
  | nil =>
    constructor
    · simp [decoderRun3, lastIdAfter]
    · simp [decoderRun3]
  | cons p ps ih =>
    have hkey : isKey p = false := hall p (by simp)
    have hstep := decoderStep3_discard W H d s p hseen hkey
    rw [decoderRun3_cons_ok W H d s _ p ps _ hstep]
    have hih := ih { s with last_idx := (p.encodeId : Int) } (by simpa using hseen)
      (fun q hq => hall q (by simp [hq]))
    refine ⟨?_, ?_⟩
    · rw [hih.1, lastIdAfter_cons]
    · intro e he
      simp only [List.mem_append] at he
      rcases he with (he | he) | he
      · exact gapLog_log d s.last_idx p e he
      · rcases he' : d with _ | _ <;> rw [he'] at he <;> simp at he
        subst he
        rfl
      · exact hih.2 e he

/-- Worker acceptance condition for the whole list: either synchronization
was already acquired, or the first packet carries the keyframe flag. -/
def accFrom (s : StreamState) : List Packet → Prop
  | [] => True
  | p :: _ => s.seen_iframe = true ∨ isKey p = true

lemma accFrom_of_seen (s : StreamState) (ps : List Packet) (h : s.seen_iframe = true) :
    accFrom s ps := by
  cases ps with
  | nil => trivial
  | cons q qs => exact Or.inl h

/-- Expected publish tuples (payload, frame index, capture time, publish
time) for a run of accepted packets, given the starting publish counter
and timestamp queue. -/
def expPubs (W H : Nat) : Nat → List Nat → List Packet → List (List Nat × Nat × Nat × Nat)
  | _, _, [] => []
  | c, tq, p :: ps =>
    match p.decodedFrames with
    | [] => expPubs W H c (tq ++ [p.recvMono]) ps
    | f :: _ =>
        (packFrame W H f, c, (tq ++ [p.recvMono]).headD 0, p.pubMono) ::
          expPubs W H (c + 1) (tq ++ [p.recvMono]).tail ps

lemma expPubs_cons_nil (W H c : Nat) (tq : List Nat) (p : Packet) (ps : List Packet)
    (hz : p.decodedFrames = []) :
    expPubs W H c tq (p :: ps) = expPubs W H c (tq ++ [p.recvMono]) ps := by
  simp only [expPubs]
  rw [hz]

lemma expPubs_cons_some (W H c : Nat) (tq : List Nat) (p : Packet) (ps : List Packet)
    (f : List Nat) (fs : List (List Nat)) (hz : p.decodedFrames = f :: fs) :
    expPubs W H c tq (p :: ps) =
      (packFrame W H f, c, (tq ++ [p.recvMono]).headD 0, p.pubMono) ::
        expPubs W H (c + 1) (tq ++ [p.recvMono]).tail ps := by
  simp only [expPubs]
  rw [hz]

/-- Master lemma: starting in an accepting state, the publishes of a run
are exactly the expected tuples computed from the starting counter and
timestamp queue (provided decode never yields more than one frame, which
would kill the worker). -/
lemma run3_publishes (W H : Nat) (d : Bool) (s : StreamState) (ps : List Packet)
    (hacc : accFrom s ps) (hyield : ∀ p ∈ ps, p.decodedFrames.length ≤ 1) :
    publishesOf (decoderRun3 W H d s ps).2 = expPubs W H s.cnt s.time_q ps := by
  induction ps generalizing s with
  | nil => simp [decoderRun3, expPubs]
  | cons p ps ih =>
    have hacc1 : s.seen_iframe = true ∨ isKey p = true := hacc
    rcases hz : p.decodedFrames with _ | ⟨f, _ | ⟨g, gs⟩⟩
    · have hstep := decoderStep3_accept_nil W H d s p hacc1 hz
      rw [decoderRun3_cons_ok W H d s _ p ps _ hstep,
        expPubs_cons_nil W H s.cnt s.time_q p ps hz]
      have hih := ih { s with last_idx := (p.encodeId : Int), seen_iframe := true,
                              time_q := s.time_q ++ [p.recvMono] }
        (accFrom_of_seen _ ps rfl) (fun q hq => hyield q (by simp [hq]))
      simpa using hih
    · have hstep := decoderStep3_accept_one W H d s p f hacc1 hz
      rw [decoderRun3_cons_ok W H d s _ p ps _ hstep,
        expPubs_cons_some W H s.cnt s.time_q p ps f [] hz]
      have hih := ih { cnt := s.cnt + 1, last_idx := (p.encodeId : Int), seen_iframe := true,
                       time_q := (s.time_q ++ [p.recvMono]).tail }
        (accFrom_of_seen _ ps rfl) (fun q hq => hyield q (by simp [hq]))
      simpa using hih
    · have hlen := hyield p (by simp)
      rw [hz] at hlen
      simp at hlen

/-- Number of accepted packets whose decode yields at least one frame. -/
def numPub (ps : List Packet) : Nat := ps.countP fun p => !p.decodedFrames.isEmpty

lemma numPub_add_fails (ps : List Packet) :
    numPub ps + ps.countP (fun p => p.decodedFrames.isEmpty) = ps.length := by
  induction ps with
  | nil => rfl
  | cons p ps ih =>
    rcases hz : p.decodedFrames with _ | ⟨f, fs⟩ <;>
      simp [numPub, List.countP_cons, hz] at ih ⊢ <;> omega

lemma expPubs_map_idx (W H : Nat) : ∀ (c : Nat) (tq : List Nat) (ps : List Packet),
    (expPubs W H c tq ps).map (fun x => x.2.1) = List.range' c (numPub ps)
  | c, tq, [] => by simp [expPubs, numPub]
  | c, tq, p :: ps => by
    rcases hz : p.decodedFrames with _ | ⟨f, fs⟩
    · rw [expPubs_cons_nil W H c tq p ps hz,
        expPubs_map_idx W H c (tq ++ [p.recvMono]) ps]
      have hn : numPub (p :: ps) = numPub ps := by simp [numPub, List.countP_cons, hz]
      rw [hn]
    · rw [expPubs_cons_some W H c tq p ps f fs hz]
      simp only [List.map_cons]
      rw [expPubs_map_idx W H (c + 1) (tq ++ [p.recvMono]).tail ps]
      have hn : numPub (p :: ps) = numPub ps + 1 := by
        simp [numPub, List.countP_cons, hz]
      rw [hn, List.range'_succ]

lemma expPubs_map_capture (W H : Nat) : ∀ (c : Nat) (tq : List Nat) (ps : List Packet),
    (expPubs W H c tq ps).map (fun x => x.2.2.1) =
      (tq ++ ps.map Packet.recvMono).take (numPub ps)
  | c, tq, [] => by simp [expPubs, numPub]
  | c, tq, p :: ps => by
    rcases hz : p.decodedFrames with _ | ⟨f, fs⟩
    · rw [expPubs_cons_nil W H c tq p ps hz,
        expPubs_map_capture W H c (tq ++ [p.recvMono]) ps]
      have hn : numPub (p :: ps) = numPub ps := by simp [numPub, List.countP_cons, hz]
      rw [hn, List.map_cons, List.append_assoc, List.singleton_append]
    · rw [expPubs_cons_some W H c tq p ps f fs hz]
      simp only [List.map_cons]
      rw [expPubs_map_capture W H (c + 1) (tq ++ [p.recvMono]).tail ps]
      have hn : numPub (p :: ps) = numPub ps + 1 := by
        simp [numPub, List.countP_cons, hz]
      rw [hn]
      cases htq : tq ++ [p.recvMono] with
      | nil => simp at htq
      | cons a l' =>
        have hsplit : tq ++ p.recvMono :: ps.map Packet.recvMono = a :: (l' ++ ps.map Packet.recvMono) := by
          rw [← List.singleton_append, ← List.append_assoc, htq, List.cons_append]
        rw [hsplit, List.take_succ_cons]
        simp

lemma expPubs_map_pubtime (W H : Nat) : ∀ (c : Nat) (tq : List Nat) (ps : List Packet),
    (expPubs W H c tq ps).map (fun x => x.2.2.2) =
      (ps.filter fun p => !p.decodedFrames.isEmpty).map Packet.pubMono
  | c, tq, [] => by simp [expPubs]
  | c, tq, p :: ps => by
    rcases hz : p.decodedFrames with _ | ⟨f, fs⟩
    · rw [expPubs_cons_nil W H c tq p ps hz,
        expPubs_map_pubtime W H c (tq ++ [p.recvMono]) ps]
      simp [List.filter_cons, hz]
    · rw [expPubs_cons_some W H c tq p ps f fs hz]
      simp only [List.map_cons]
      rw [expPubs_map_pubtime W H (c + 1) (tq ++ [p.recvMono]).tail ps]
      simp [List.filter_cons, hz]

lemma decoderRun3_append_ok (W H : Nat) (d : Bool) (s s' : StreamState) (xs ys : List Packet)
    (t : List Event) (hx : decoderRun3 W H d s xs = (Outcome.ok s', t)) :
    decoderRun3 W H d s (xs ++ ys) =
      ((decoderRun3 W H d s' ys).1, t ++ (decoderRun3 W H d s' ys).2) := by
  induction xs generalizing s t with
  | nil =>
    simp only [decoderRun3, Prod.mk.injEq, Outcome.ok.injEq] at hx
    obtain ⟨h1, h2⟩ := hx
    subst h1
    subst h2
    simp
  | cons p xs ih =>
    cases hstep : decoderStep3 W H d s p with
    | mk o evs =>
      cases o with
      | ok s1 =>
        rw [List.cons_append, decoderRun3_cons_ok W H d s s1 p (xs ++ ys) evs hstep]
        rw [decoderRun3_cons_ok W H d s s1 p xs evs hstep] at hx
        cases hr : decoderRun3 W H d s1 xs with
        | mk o1 t1 =>
          rw [hr] at hx
          simp only [Prod.mk.injEq] at hx
          obtain ⟨ho, ht⟩ := hx
          have hrec := ih s1 t1 (by rw [hr, ho])
          rw [hrec]
          simp only [Prod.mk.injEq, true_and]
          rw [← ht, List.append_assoc]
      | aborted k =>
        rw [decoderRun3_cons_aborted W H d s p xs k evs hstep] at hx
        simp at hx

lemma publishesOf_eq_nil_of_logs (t : List Event) (h : ∀ e ∈ t, e.isLogEv = true) :
    publishesOf t = [] := by
  rw [publishesOf, List.filterMap_eq_nil_iff]
  intro e he
  have he' := h e he
  cases e <;> simp [Event.isLogEv] at he' ⊢

/-- From the initial state, the publishes of a run whose sync-waiting
prefix `pre` carries no keyframe flag and whose accepted suffix `post`
starts with a keyframe are exactly the expected tuples for `post`. -/
lemma run3_publishes_from_init (W H : Nat) (d : Bool) (pre post : List Packet)
    (hpre : ∀ p ∈ pre, isKey p = false)
    (hpost : ∀ p ∈ post.take 1, isKey p = true)
    (hyield : ∀ p ∈ post, p.decodedFrames.length ≤ 1) :
    publishesOf (decoderRun3 W H d initState (pre ++ post)).2 = expPubs W H 0 [] post := by
  have hsync := run3_sync_skip W H d initState pre rfl hpre
  have hx : decoderRun3 W H d initState pre =
      (Outcome.ok { initState with last_idx := lastIdAfter initState.last_idx pre },
       (decoderRun3 W H d initState pre).2) := by
    rw [← hsync.1]
  have happ := decoderRun3_append_ok W H d initState _ pre post _ hx
  rw [happ]
  dsimp only
  rw [publishesOf_append, publishesOf_eq_nil_of_logs _ hsync.2, List.nil_append]
  have hacc : accFrom { initState with last_idx := lastIdAfter initState.last_idx pre } post := by
    cases post with
    | nil => trivial
    | cons q qs => exact Or.inr (hpost q (by simp))
  exact run3_publishes W H d _ post hacc hyield

/-- C2: if `pre` is the discarded prefix (no keyframe flag) and `post` the
accepted packets (first one keyframe-flagged), with each decode yielding
at most one frame, then the number of publishes is `N - F` (accepted
packets minus zero-frame decodes) and the frame indices handed to
`vipc_server.send` are exactly `0, 1, …, N-F-1` in order, independent of
the `encodeId` values. -/
theorem dense_publish_index (W H : Nat) (d : Bool) (pre post : List Packet)
    (hpre : ∀ p ∈ pre, isKey p = false)
    (hpost : ∀ p ∈ post.take 1, isKey p = true)
    (hyield : ∀ p ∈ post, p.decodedFrames.length ≤ 1) :
    (publishesOf (decoderRun3 W H d initState (pre ++ post)).2).map (fun x => x.2.1) =
      List.range (post.length - post.countP fun p => p.decodedFrames.isEmpty) ∧
    (publishesOf (decoderRun3 W H d initState (pre ++ post)).2).length =
      post.length - post.countP fun p => p.decodedFrames.isEmpty := by
  have hmain := run3_publishes_from_init W H d pre post hpre hpost hyield
  have hidx := expPubs_map_idx W H 0 [] post
  have hnum := numPub_add_fails post
  constructor
  · rw [hmain, hidx, List.range_eq_range']
    have hnf : numPub post = post.length - post.countP fun p => p.decodedFrames.isEmpty := by
      omega
    rw [hnf]
  · rw [hmain]
    have hlen := congrArg List.length hidx
    simp only [List.length_map, List.length_range'] at hlen
    omega

def wpkt0 : Packet := ⟨1, 0, [], [70], [[9, 9, 9, 9, 9, 9]], 11, 21, 0⟩

def wpkt1 : Packet := ⟨2, 8, [33], [44], [[1, 2, 3, 4, 5, 6]], 12, 22, 0⟩

def wpkt2 : Packet := ⟨3, 8, [], [55], [], 13, 23, 0⟩

def wpkt3 : Packet := ⟨7, 0, [], [66], [[6, 5, 4, 3, 2, 1]], 14, 24, 1⟩

theorem dense_publish_index_witness :
    (∀ p ∈ [wpkt0], isKey p = false) ∧
    (∀ p ∈ [wpkt1, wpkt2, wpkt3].take 1, isKey p = true) ∧
    (∀ p ∈ [wpkt1, wpkt2, wpkt3], p.decodedFrames.length ≤ 1) ∧
    ((publishesOf (decoderRun3 2 2 false initState ([wpkt0] ++ [wpkt1, wpkt2, wpkt3])).2).map
        (fun x => x.2.1) =
      List.range ([wpkt1, wpkt2, wpkt3].length -
        [wpkt1, wpkt2, wpkt3].countP fun p => p.decodedFrames.isEmpty) ∧
     (publishesOf (decoderRun3 2 2 false initState ([wpkt0] ++ [wpkt1, wpkt2, wpkt3])).2).length =
      [wpkt1, wpkt2, wpkt3].length -
        [wpkt1, wpkt2, wpkt3].countP fun p => p.decodedFrames.isEmpty) :=
  ⟨by decide, by decide, by decide,
   dense_publish_index 2 2 false [wpkt0] [wpkt1, wpkt2, wpkt3]
     (by decide) (by decide) (by decide)⟩

/-- C3: with receipt timestamps recorded in arrival order (strictly
increasing over the accepted suffix), the capture timestamp of the i-th
publish is the i-th entry of the accepted packets' receipt-timestamp list
(the i-th oldest pending timestamp, FIFO), even with interspersed
zero-frame decodes, and the publish timestamp of each publish is the
monotonic clock value at that publish. -/
theorem timestamp_fifo_pairing (W H : Nat) (d : Bool) (pre post : List Packet)
    (hpre : ∀ p ∈ pre, isKey p = false)
    (hpost : ∀ p ∈ post.take 1, isKey p = true)
    (hyield : ∀ p ∈ post, p.decodedFrames.length ≤ 1)
    (hmono : List.Sorted (· < ·) (post.map Packet.recvMono)) :
    (publishesOf (decoderRun3 W H d initState (pre ++ post)).2).map (fun x => x.2.2.1) =
      (post.map Packet.recvMono).take (numPub post) ∧
    (publishesOf (decoderRun3 W H d initState (pre ++ post)).2).map (fun x => x.2.2.2) =
      (post.filter fun p => !p.decodedFrames.isEmpty).map Packet.pubMono := by
  have hmain := run3_publishes_from_init W H d pre post hpre hpost hyield
  constructor
  · rw [hmain, expPubs_map_capture W H 0 [] post, List.nil_append]
  · rw [hmain, expPubs_map_pubtime W H 0 [] post]

theorem timestamp_fifo_pairing_witness :
    (∀ p ∈ [wpkt0], isKey p = false) ∧
    (∀ p ∈ [wpkt1, wpkt2, wpkt3].take 1, isKey p = true) ∧
    (∀ p ∈ [wpkt1, wpkt2, wpkt3], p.decodedFrames.length ≤ 1) ∧
    List.Sorted (· < ·) ([wpkt1, wpkt2, wpkt3].map Packet.recvMono) ∧
    ((publishesOf (decoderRun3 2 2 false initState ([wpkt0] ++ [wpkt1, wpkt2, wpkt3])).2).map
        (fun x => x.2.2.1) =
      ([wpkt1, wpkt2, wpkt3].map Packet.recvMono).take (numPub [wpkt1, wpkt2, wpkt3]) ∧
     (publishesOf (decoderRun3 2 2 false initState ([wpkt0] ++ [wpkt1, wpkt2, wpkt3])).2).map
        (fun x => x.2.2.2) =
      ([wpkt1, wpkt2, wpkt3].filter fun p => !p.decodedFrames.isEmpty).map Packet.pubMono) :=
  ⟨by decide, by decide, by decide, by decide,
   timestamp_fifo_pairing 2 2 false [wpkt0] [wpkt1, wpkt2, wpkt3]
     (by decide) (by decide) (by decide) (by decide)⟩

/-- C4: an accepted packet whose decode yields zero frames ends its
iteration with no publish and no pop: the publish counter and the rest of
the state are unchanged except that `last_idx` is updated and the packet's
receipt timestamp stays appended to `time_q` for a later publish, and the
loop goes on to the remaining packets. -/
theorem drop_surface_skips (W H : Nat) (d : Bool) (s : StreamState) (p : Packet)
    (rest : List Packet) (hseen : s.seen_iframe = true) (hz : p.decodedFrames = []) :
    (decoderStep3 W H d s p).1 =
      Outcome.ok { s with last_idx := (p.encodeId : Int), seen_iframe := true,
                          time_q := s.time_q ++ [p.recvMono] } ∧
    publishesOf (decoderStep3 W H d s p).2 = [] ∧
    decoderRun3 W H d s (p :: rest) =
      ((decoderRun3 W H d
          { s with last_idx := (p.encodeId : Int), seen_iframe := true,
                   time_q := s.time_q ++ [p.recvMono] } rest).1,
       (decoderStep3 W H d s p).2 ++
         (decoderRun3 W H d
            { s with last_idx := (p.encodeId : Int), seen_iframe := true,
                     time_q := s.time_q ++ [p.recvMono] } rest).2) := by
  have hstep := decoderStep3_accept_nil W H d s p (Or.inl hseen) hz
  refine ⟨by rw [hstep], by rw [hstep]; simp, ?_⟩
  rw [decoderRun3_cons_ok W H d s _ p rest _ hstep, hstep]

def wstate : StreamState := ⟨4, 17, true, [99]⟩

def wstateDrop : StreamState :=
  { wstate with last_idx := (wpkt2.encodeId : Int), seen_iframe := true,
                time_q := wstate.time_q ++ [wpkt2.recvMono] }

theorem drop_surface_skips_witness :
    wstate.seen_iframe = true ∧
    wpkt2.decodedFrames = [] ∧
    ((decoderStep3 2 2 false wstate wpkt2).1 = Outcome.ok wstateDrop ∧
     publishesOf (decoderStep3 2 2 false wstate wpkt2).2 = [] ∧
     decoderRun3 2 2 false wstate (wpkt2 :: [wpkt3]) =
      ((decoderRun3 2 2 false wstateDrop [wpkt3]).1,
       (decoderStep3 2 2 false wstate wpkt2).2 ++
         (decoderRun3 2 2 false wstateDrop [wpkt3]).2)) :=
  ⟨rfl, rfl, drop_surface_skips 2 2 false wstate wpkt2 [wpkt3] rfl rfl⟩

def wpkt5 : Packet := ⟨9, 0, [], [1], [[1, 2, 3, 4, 5, 6], [2, 3, 4, 5, 6, 7]], 30, 31, 0⟩

/-- C5: an accepted packet whose decode yields more than one frame makes
the `assert len(frames) == 1` fail: the iteration ends in the
assertion-failure abort, the worker processes no further packets, and no
publish is emitted for that packet; the zero-frame case (C4) is the only
non-fatal non-1 frame count. -/
theorem multi_frame_asserts (W H : Nat) (d : Bool) (s : StreamState) (p : Packet)
    (rest : List Packet) (hseen : s.seen_iframe = true)
    (hmulti : 2 ≤ p.decodedFrames.length) :
    (decoderStep3 W H d s p).1 = Outcome.aborted AbortKind.assertFailed ∧
    publishesOf (decoderStep3 W H d s p).2 = [] ∧
    decoderRun3 W H d s (p :: rest) =
      (Outcome.aborted AbortKind.assertFailed, (decoderStep3 W H d s p).2) := by
  rcases hz : p.decodedFrames with _ | ⟨f, _ | ⟨g, gs⟩⟩
  · rw [hz] at hmulti
    simp at hmulti
  · rw [hz] at hmulti
    simp at hmulti
  · have hstep := decoderStep3_accept_many W H d s p f g gs (Or.inl hseen) hz
    refine ⟨by rw [hstep], by rw [hstep]; simp, ?_⟩
    rw [decoderRun3_cons_aborted W H d s p rest AbortKind.assertFailed _ hstep, hstep]

theorem multi_frame_asserts_witness :
    wstate.seen_iframe = true ∧
    2 ≤ wpkt5.decodedFrames.length ∧
    ((decoderStep3 2 2 false wstate wpkt5).1 =
      Outcome.aborted AbortKind.assertFailed ∧
     publishesOf (decoderStep3 2 2 false wstate wpkt5).2 = [] ∧
     decoderRun3 2 2 false wstate (wpkt5 :: [wpkt3]) =
      (Outcome.aborted AbortKind.assertFailed,
       (decoderStep3 2 2 false wstate wpkt5).2)) :=
  ⟨rfl, by decide, multi_frame_asserts 2 2 false wstate wpkt5 [wpkt3] rfl (by decide)⟩

lemma mem_gapLog_iff (d : Bool) (l : Int) (p : Packet) :
    Event.dropPacketLog ∈ gapLog d l p ↔
      (d = true ∧ p.encodeId ≠ 0 ∧ (p.encodeId : Int) ≠ l + 1) := by
  unfold gapLog
  split
  · next hcond =>
    simp only [Bool.and_eq_true, bne_iff_ne, ne_eq] at hcond
    simp only [List.mem_singleton, true_iff]
    exact ⟨hcond.1.1, hcond.1.2, hcond.2⟩
  · next hcond =>
    constructor
    · intro h
      simp at h
    · rintro ⟨h1, h2, h3⟩
      exact absurd (by simp [Bool.and_eq_true, bne_iff_ne, h1, h2, h3]) hcond

lemma mem_dropLog_step_iff (W H : Nat) (t : StreamState) (q : Packet) :
    Event.dropPacketLog ∈ (decoderStep3 W H true t q).2 ↔
      (q.encodeId ≠ 0 ∧ (q.encodeId : Int) ≠ t.last_idx + 1) := by
  unfold decoderStep3
  split
  · simp [mem_gapLog_iff]
  · rcases hf : q.decodedFrames with _ | ⟨f, _ | ⟨g, gs⟩⟩ <;>
      simp [hf, mem_gapLog_iff, Event.isGapLogEv]

/-- C10: every received packet sets `last_idx` to its `encodeId` — also the
non-keyframe packets discarded while waiting for the iframe — so the gap
check for the next packet compares against the id of the last discarded
packet, not against the initial `-1` sentinel. -/
theorem last_idx_always_updated (W H : Nat) (d : Bool) (s : StreamState) (p q : Packet)
    (hseen : s.seen_iframe = false) (hkey : isKey p = false) :
    decoderStep3 W H d s p =
      (Outcome.ok { s with last_idx := (p.encodeId : Int) },
       gapLog d s.last_idx p ++ if d then [Event.waitingLog] else []) ∧
    (Event.dropPacketLog ∈ (decoderStep3 W H true { s with last_idx := (p.encodeId : Int) } q).2 ↔
      (q.encodeId ≠ 0 ∧ (q.encodeId : Int) ≠ (p.encodeId : Int) + 1)) ∧
    ∀ (t : StreamState) (r : Packet) (s' : StreamState) (evs : List Event),
      decoderStep3 W H d t r = (Outcome.ok s', evs) → s'.last_idx = (r.encodeId : Int) := by
  refine ⟨decoderStep3_discard W H d s p hseen hkey, ?_, ?_⟩
  · simpa using mem_dropLog_step_iff W H { s with last_idx := (p.encodeId : Int) } q
  · intro t r s' evs h
    by_cases hdisc : (!t.seen_iframe && (r.flags &&& V4L2_BUF_FLAG_KEYFRAME == 0)) = true
    · simp only [Bool.and_eq_true, Bool.not_eq_true', beq_iff_eq] at hdisc
      rw [decoderStep3_discard W H d t r hdisc.1 (by simp [isKey, hdisc.2])] at h
      simp only [Prod.mk.injEq, Outcome.ok.injEq] at h
      rw [← h.1]
    · have hacc : t.seen_iframe = true ∨ isKey r = true := by
        simp only [Bool.and_eq_true, Bool.not_eq_true', beq_iff_eq, not_and] at hdisc
        by_cases hts : t.seen_iframe = true
        · exact Or.inl hts
        · refine Or.inr ?_
          simp only [isKey, bne_iff_ne, ne_eq]
          exact hdisc (by simpa using hts)
      rcases hf : r.decodedFrames with _ | ⟨f, _ | ⟨g, gs⟩⟩
      · rw [decoderStep3_accept_nil W H d t r hacc hf] at h
        simp only [Prod.mk.injEq, Outcome.ok.injEq] at h
        rw [← h.1]
      · rw [decoderStep3_accept_one W H d t r f hacc hf] at h
        simp only [Prod.mk.injEq, Outcome.ok.injEq] at h
        rw [← h.1]
      · rw [decoderStep3_accept_many W H d t r f g gs hacc hf] at h
        simp at h

theorem last_idx_always_updated_witness :
    initState.seen_iframe = false ∧
    isKey wpkt0 = false ∧
    (decoderStep3 2 2 true initState wpkt0 =
      (Outcome.ok { initState with last_idx := (wpkt0.encodeId : Int) },
       gapLog true initState.last_idx wpkt0 ++ if true then [Event.waitingLog] else []) ∧
     (Event.dropPacketLog ∈
        (decoderStep3 2 2 true { initState with last_idx := (wpkt0.encodeId : Int) } wpkt3).2 ↔
      (wpkt3.encodeId ≠ 0 ∧ (wpkt3.encodeId : Int) ≠ (wpkt0.encodeId : Int) + 1)) ∧
     ∀ (t : StreamState) (r : Packet) (s' : StreamState) (evs : List Event),
       decoderStep3 2 2 true t r = (Outcome.ok s', evs) → s'.last_idx = (r.encodeId : Int)) :=
  ⟨rfl, by decide, last_idx_always_updated 2 2 true initState wpkt0 wpkt3 rfl (by decide)⟩

/-- Two packets that agree on everything except their `encodeId`. -/
def Packet.sameButId (p q : Packet) : Prop :=
  p.flags = q.flags ∧ p.header = q.header ∧ p.data = q.data ∧
  p.decodedFrames = q.decodedFrames ∧ p.recvMono = q.recvMono ∧
  p.pubMono = q.pubMono ∧ p.wallTime = q.wallTime

@[simp] lemma filter_nonGap_gapLog (d : Bool) (l : Int) (p : Packet) :
    (gapLog d l p).filter (fun e => !e.isGapLogEv) = [] := by
  unfold gapLog
  split <;> rfl

@[simp] lemma filter_nonGap_waiting_ite (c : Prop) [Decidable c] :
    (if c then [Event.waitingLog] else []).filter (fun e => !e.isGapLogEv) =
      if c then [Event.waitingLog] else [] := by
  split <;> rfl

@[simp] lemma filter_nonGap_dropSurface_ite (c : Prop) [Decidable c] :
    (if c then [Event.dropSurfaceLog] else []).filter (fun e => !e.isGapLogEv) =
      if c then [Event.dropSurfaceLog] else [] := by
  split <;> rfl

@[simp] lemma filter_nonGap_hdr_ite (c : Prop) [Decidable c] (bs : List Nat) :
    (if c then [Event.submitHeader bs] else []).filter (fun e => !e.isGapLogEv) =
      if c then [Event.submitHeader bs] else [] := by
  split <;> rfl

lemma step3_encodeId_independent (W H : Nat) (d : Bool) (s t : StreamState) (p q : Packet)
    (hp : Packet.sameButId p q)
    (hcnt : s.cnt = t.cnt) (hseen : s.seen_iframe = t.seen_iframe) (htq : s.time_q = t.time_q) :
    ((decoderStep3 W H d s p).2.filter (fun e => !e.isGapLogEv) =
       (decoderStep3 W H d t q).2.filter (fun e => !e.isGapLogEv)) ∧
    (match (decoderStep3 W H d s p).1, (decoderStep3 W H d t q).1 with
     | Outcome.ok s', Outcome.ok t' =>
         s'.cnt = t'.cnt ∧ s'.seen_iframe = t'.seen_iframe ∧ s'.time_q = t'.time_q
     | Outcome.aborted k1, Outcome.aborted k2 => k1 = k2
     | _, _ => False) := by
  obtain ⟨hfl, hhd, hdat, hfr, hrecv, hpub, hwall⟩ := hp
  by_cases hdisc : (!s.seen_iframe && (p.flags &&& V4L2_BUF_FLAG_KEYFRAME == 0)) = true
  · simp only [Bool.and_eq_true, Bool.not_eq_true', beq_iff_eq] at hdisc
    rw [decoderStep3_discard W H d s p hdisc.1 (by simp [isKey, hdisc.2]),
      decoderStep3_discard W H d t q (by rw [← hseen]; exact hdisc.1)
        (by simp [isKey, ← hfl, hdisc.2])]
    simp [hcnt, hseen, htq]
  · have hacc : s.seen_iframe = true ∨ isKey p = true := by
      simp only [Bool.and_eq_true, Bool.not_eq_true', beq_iff_eq, not_and] at hdisc
      by_cases hts : s.seen_iframe = true
      · exact Or.inl hts
      · refine Or.inr ?_
        simp only [isKey, bne_iff_ne, ne_eq]
        exact hdisc (by simpa using hts)
    have hacc' : t.seen_iframe = true ∨ isKey q = true := by
      rcases hacc with h | h
      · exact Or.inl (hseen ▸ h)
      · refine Or.inr ?_
        simpa [isKey, ← hfl] using h
    rcases hf : p.decodedFrames with _ | ⟨f, _ | ⟨g, gs⟩⟩
    · rw [decoderStep3_accept_nil W H d s p hacc hf,
        decoderStep3_accept_nil W H d t q hacc' (by rw [← hfr, hf])]
      simp [hhd, hdat, hrecv, hseen, htq, hcnt]
    · rw [decoderStep3_accept_one W H d s p f hacc hf,
        decoderStep3_accept_one W H d t q f hacc' (by rw [← hfr, hf])]
      simp [hhd, hdat, hrecv, hpub, hwall, hseen, htq, hcnt]
    · rw [decoderStep3_accept_many W H d s p f g gs hacc hf,
        decoderStep3_accept_many W H d t q f g gs hacc' (by rw [← hfr, hf])]
      simp [hhd, hdat, hseen]

lemma run3_encodeId_independent (W H : Nat) (d : Bool) :
    ∀ (ps qs : List Packet) (s t : StreamState),
    List.Forall₂ Packet.sameButId ps qs →
    s.cnt = t.cnt → s.seen_iframe = t.seen_iframe → s.time_q = t.time_q →
    (decoderRun3 W H d s ps).2.filter (fun e => !e.isGapLogEv) =
      (decoderRun3 W H d t qs).2.filter (fun e => !e.isGapLogEv)
  | [], [], s, t, _, _, _, _ => by simp [decoderRun3]
  | p :: ps, q :: qs, s, t, hall, hcnt, hseen, htq => by
    have hpq : Packet.sameButId p q := by
      cases hall with
      | cons h _ => exact h
    have hrest : List.Forall₂ Packet.sameButId ps qs := by
      cases hall with
      | cons _ h => exact h
    have hstep := step3_encodeId_independent W H d s t p q hpq hcnt hseen htq
    cases hsp : decoderStep3 W H d s p with
    | mk o1 e1 =>
      cases hsq : decoderStep3 W H d t q with
      | mk o2 e2 =>
        rw [hsp, hsq] at hstep
        cases o1 with
        | ok s' =>
          cases o2 with
          | ok t' =>
            rw [decoderRun3_cons_ok W H d s s' p ps e1 hsp,
              decoderRun3_cons_ok W H d t t' q qs e2 hsq]
            dsimp only
            rw [List.filter_append, List.filter_append, hstep.1,
              run3_encodeId_independent W H d ps qs s' t' hrest
                hstep.2.1 hstep.2.2.1 hstep.2.2.2]
          | aborted k2 => exact absurd hstep.2 (by simp)
        | aborted k1 =>
          cases o2 with
          | ok t' => exact absurd hstep.2 (by simp)
          | aborted k2 =>
            rw [decoderRun3_cons_aborted W H d s p ps k1 e1 hsp,
              decoderRun3_cons_aborted W H d t q qs k2 e2 hsq]
            exact hstep.1

lemma publishesOf_filter_nonGap (t : List Event) :
    publishesOf (t.filter fun e => !e.isGapLogEv) = publishesOf t := by
  induction t with
  | nil => rfl
  | cons e t ih =>
    cases e <;> simp [publishesOf, List.filter_cons, Event.isGapLogEv] at ih ⊢ <;>
      exact ih

/-- C7: two packet streams that differ only in their `encodeId` values
produce byte-identical bus publishes (payloads, frame indices, capture and
publish timestamps) and identical traces apart from the `DROP PACKET!`
diagnostic line; a sequence gap never blocks, skips, or alters a publish. -/
theorem gap_only_diagnostic (W H : Nat) (d : Bool) (ps qs : List Packet)
    (h : List.Forall₂ Packet.sameButId ps qs) :
    publishesOf (decoderRun3 W H d initState ps).2 =
      publishesOf (decoderRun3 W H d initState qs).2 ∧
    (decoderRun3 W H d initState ps).2.filter (fun e => !e.isGapLogEv) =
      (decoderRun3 W H d initState qs).2.filter (fun e => !e.isGapLogEv) := by
  have hmain := run3_encodeId_independent W H d ps qs initState initState h rfl rfl rfl
  refine ⟨?_, hmain⟩
  rw [← publishesOf_filter_nonGap (decoderRun3 W H d initState ps).2,
    ← publishesOf_filter_nonGap (decoderRun3 W H d initState qs).2, hmain]

def wgap1 : Packet := ⟨5, 8, [2], [3], [[1, 2, 3, 4, 5, 6]], 40, 41, 0⟩

def wgap2 : Packet := ⟨6, 0, [], [4], [[2, 2, 2, 2, 2, 2]], 42, 43, 0⟩

def wgap2b : Packet := ⟨9, 0, [], [4], [[2, 2, 2, 2, 2, 2]], 42, 43, 0⟩

theorem gap_only_diagnostic_witness :
    List.Forall₂ Packet.sameButId [wgap1, wgap2] [wgap1, wgap2b] ∧
    (publishesOf (decoderRun3 2 2 true initState [wgap1, wgap2]).2 =
      publishesOf (decoderRun3 2 2 true initState [wgap1, wgap2b]).2 ∧
     (decoderRun3 2 2 true initState [wgap1, wgap2]).2.filter (fun e => !e.isGapLogEv) =
      (decoderRun3 2 2 true initState [wgap1, wgap2b]).2.filter (fun e => !e.isGapLogEv)) :=
  ⟨List.Forall₂.cons ⟨rfl, rfl, rfl, rfl, rfl, rfl, rfl⟩
     (List.Forall₂.cons ⟨rfl, rfl, rfl, rfl, rfl, rfl, rfl⟩ List.Forall₂.nil),
   gap_only_diagnostic 2 2 true [wgap1, wgap2] [wgap1, wgap2b]
     (List.Forall₂.cons ⟨rfl, rfl, rfl, rfl, rfl, rfl, rfl⟩
       (List.Forall₂.cons ⟨rfl, rfl, rfl, rfl, rfl, rfl, rfl⟩ List.Forall₂.nil))⟩

@[simp] lemma forwardTimes_nil : forwardTimes [] = [] := rfl

@[simp] lemma forwardTimes_append (a b : List Event) :
    forwardTimes (a ++ b) = forwardTimes a ++ forwardTimes b := by
  simp [forwardTimes]

@[simp] lemma forwardTimes_gapLog (d : Bool) (l : Int) (p : Packet) :
    forwardTimes (gapLog d l p) = [] := by
  unfold gapLog
  split <;> rfl

@[simp] lemma forwardTimes_waiting_ite (c : Prop) [Decidable c] :
    forwardTimes (if c then [Event.waitingLog] else []) = [] := by
  split <;> rfl

@[simp] lemma forwardTimes_dropSurface_ite (c : Prop) [Decidable c] :
    forwardTimes (if c then [Event.dropSurfaceLog] else []) = [] := by
  split <;> rfl

@[simp] lemma forwardTimes_hdr_ite (c : Prop) [Decidable c] (bs : List Nat) :
    forwardTimes (if c then [Event.submitHeader bs] else []) = [] := by
  split <;> rfl

@[simp] lemma forwardTimes_cons_decode (bs : List Nat) (t : List Event) :
    forwardTimes (Event.decodeData bs :: t) = forwardTimes t := rfl

@[simp] lemma forwardTimes_cons_publish (pl : List Nat) (i cap pub : Nat) (t : List Event) :
    forwardTimes (Event.publish pl i cap pub :: t) = forwardTimes t := rfl

@[simp] lemma forwardTimes_cons_forward (pl : List Nat) (w : ℚ) (t : List Event) :
    forwardTimes (Event.forwardDisplay pl w :: t) = w :: forwardTimes t := rfl

/-- Per-iteration throttle analysis of the vipc4 worker: an iteration either
forwards nothing and leaves `last_capture_time` unchanged, or forwards at
its wall-clock time `w` with `last_capture_time + 1 ≤ w` and sets
`last_capture_time` to `w`. -/
lemma decoderStep4_forward (W H : Nat) (d : Bool) (s : StreamState4) (p : Packet) :
    (forwardTimes (decoderStep4 W H d s p).2 = [] ∧
     ∀ s', (decoderStep4 W H d s p).1 = Outcome.ok s' →
       s'.last_capture_time = s.last_capture_time) ∨
    (forwardTimes (decoderStep4 W H d s p).2 = [p.wallTime] ∧
     s.last_capture_time + 1 ≤ p.wallTime ∧
     ∀ s', (decoderStep4 W H d s p).1 = Outcome.ok s' →
       s'.last_capture_time = p.wallTime) := by
  unfold decoderStep4
  split
  · refine Or.inl ⟨by simp, ?_⟩
    intro s' h
    simp only [Outcome.ok.injEq] at h
    rw [← h]
  · rcases hf : p.decodedFrames with _ | ⟨f, _ | ⟨g, gs⟩⟩
    · refine Or.inl ⟨by simp, ?_⟩
      intro s' h
      simp only [Outcome.ok.injEq] at h
      rw [← h]
    · by_cases hcap : 1 ≤ p.wallTime - s.last_capture_time
      · refine Or.inr ⟨?_, ?_, ?_⟩
        · simp [hcap, List.append_eq_nil]
        · linarith
        · intro s' h
          simp only [hcap, if_true] at h
          rw [if_neg (by simp)] at h
          simp only [Outcome.ok.injEq] at h
          rw [← h]
      · refine Or.inl ⟨?_, ?_⟩
        · simp [hcap]
        · intro s' h
          simp only [hcap, if_false] at h
          rw [if_neg (by simp)] at h
          simp only [Outcome.ok.injEq] at h
          rw [← h]
    · refine Or.inl ⟨by simp, ?_⟩
      intro s' h
      simp at h

lemma decoderRun4_cons_ok (W H : Nat) (d : Bool) (s s' : StreamState4) (p : Packet)
    (ps : List Packet) (evs : List Event)
    (h : decoderStep4 W H d s p = (Outcome.ok s', evs)) :
    decoderRun4 W H d s (p :: ps) =
      ((decoderRun4 W H d s' ps).1, evs ++ (decoderRun4 W H d s' ps).2) := by
  simp [decoderRun4, h]

lemma decoderRun4_cons_aborted (W H : Nat) (d : Bool) (s : StreamState4) (p : Packet)
    (ps : List Packet) (k : AbortKind) (evs : List Event)
    (h : decoderStep4 W H d s p = (Outcome.aborted k, evs)) :
    decoderRun4 W H d s (p :: ps) = (Outcome.aborted k, evs) := by
  simp [decoderRun4, h]

lemma gapsFrom_single (b w : ℚ) (h : b + 1 ≤ w) : gapsFrom b [w] := ⟨h, trivial⟩

/-- C9 (amended, vipc4 variant): the wall-clock times at which frames are
forwarded to the display/inference queue are spaced at least one second
apart, and the first is at least one second after the initial
`last_capture_time` — the `current_time - last_capture_time >= 1` throttle. -/
theorem vipc4_forward_throttled (W H : Nat) (d : Bool) (s : StreamState4) (ps : List Packet) :
    gapsFrom s.last_capture_time (forwardTimes (decoderRun4 W H d s ps).2) := by
  induction ps generalizing s with
  | nil => simp [decoderRun4, gapsFrom]
  | cons p ps ih =>
    have hstep := decoderStep4_forward W H d s p
    cases hsp : decoderStep4 W H d s p with
    | mk o evs =>
      rw [hsp] at hstep
      cases o with
      | ok s' =>
        rw [decoderRun4_cons_ok W H d s s' p ps evs hsp]
        dsimp only
        rw [forwardTimes_append]
        rcases hstep with ⟨hfw, hlc⟩ | ⟨hfw, hle, hlc⟩
        · rw [hfw, List.nil_append, ← hlc s' rfl]
          exact ih s'
        · rw [hfw, List.singleton_append]
          exact ⟨hle, by rw [← hlc s' rfl]; exact ih s'⟩
      | aborted k =>
        rw [decoderRun4_cons_aborted W H d s p ps k evs hsp]
        rcases hstep with ⟨hfw, _⟩ | ⟨hfw, hle, _⟩
        · rw [hfw]
          trivial
        · rw [hfw]
          exact gapsFrom_single _ _ hle

def cpkt1 : Packet := ⟨1, 8, [12], [13], [[1, 2, 3, 4, 5, 6]], 50, 51, 0⟩

def cpkt2 : Packet := ⟨2, 0, [], [14], [[6, 6, 6, 6, 6, 6]], 52, 53, 0⟩

/-- C9 counterexample (vipc3 variant): with two successfully decoded
packets that arrive within the same wall-clock second, the vipc3
worker forwards both frames to the display (`cv2.imshow` runs for every
published frame): the second forward happens within one second of the
first, so the at-most-once-per-second throttle claimed for the forwarding
step does not hold for `compressed_vipc3.py`. -/
theorem vipc3_forwards_within_one_second :
    forwardTimes (decoderRun3 2 2 false initState [cpkt1, cpkt2]).2 = [0, 0] ∧
    (0 : ℚ) - 0 < 1 ∧
    ¬ gapsFrom 0 (forwardTimes (decoderRun3 2 2 false initState [cpkt1, cpkt2]).2) := by
  refine ⟨by decide, by norm_num, ?_⟩
  intro hgap
  rw [(by decide : forwardTimes (decoderRun3 2 2 false initState [cpkt1, cpkt2]).2 = [0, 0])] at hgap
  exact absurd hgap.1 (by norm_num)

/-- The header submissions of a trace (`codec.decode(av.packet.Packet(evta.header))`). -/
def headersOf (t : List Event) : List (List Nat) :=
  t.filterMap fun e =>
    match e with
    | Event.submitHeader bs => some bs
    | _ => none

/-- The data submissions of a trace (`codec.decode(av.packet.Packet(evta.data))`). -/
def decodesOf (t : List Event) : List (List Nat) :=
  t.filterMap fun e =>
    match e with
    | Event.decodeData bs => some bs
    | _ => none

@[simp] lemma headersOf_nil : headersOf [] = [] := rfl

@[simp] lemma headersOf_append (a b : List Event) :
    headersOf (a ++ b) = headersOf a ++ headersOf b := by
  simp [headersOf]

@[simp] lemma headersOf_cons_header (bs : List Nat) (t : List Event) :
    headersOf (Event.submitHeader bs :: t) = bs :: headersOf t := rfl

@[simp] lemma headersOf_cons_decode (bs : List Nat) (t : List Event) :
    headersOf (Event.decodeData bs :: t) = headersOf t := rfl

@[simp] lemma headersOf_cons_publish (pl : List Nat) (i cap pub : Nat) (t : List Event) :
    headersOf (Event.publish pl i cap pub :: t) = headersOf t := rfl

@[simp] lemma headersOf_cons_forward (pl : List Nat) (w : ℚ) (t : List Event) :
    headersOf (Event.forwardDisplay pl w :: t) = headersOf t := rfl

@[simp] lemma headersOf_gapLog (d : Bool) (l : Int) (p : Packet) :
    headersOf (gapLog d l p) = [] := by
  unfold gapLog
  split <;> rfl

@[simp] lemma headersOf_waiting_ite (c : Prop) [Decidable c] :
    headersOf (if c then [Event.waitingLog] else []) = [] := by
  split <;> rfl

@[simp] lemma headersOf_dropSurface_ite (c : Prop) [Decidable c] :
    headersOf (if c then [Event.dropSurfaceLog] else []) = [] := by
  split <;> rfl

@[simp] lemma decodesOf_nil : decodesOf [] = [] := rfl

@[simp] lemma decodesOf_append (a b : List Event) :
    decodesOf (a ++ b) = decodesOf a ++ decodesOf b := by
  simp [decodesOf]

@[simp] lemma decodesOf_cons_header (bs : List Nat) (t : List Event) :
    decodesOf (Event.submitHeader bs :: t) = decodesOf t := rfl

@[simp] lemma decodesOf_cons_decode (bs : List Nat) (t : List Event) :
    decodesOf (Event.decodeData bs :: t) = bs :: decodesOf t := rfl

@[simp] lemma decodesOf_gapLog (d : Bool) (l : Int) (p : Packet) :
    decodesOf (gapLog d l p) = [] := by
  unfold gapLog
  split <;> rfl

lemma log_not_core (e : Event) (h : e.isLogEv = true) :
    e.isHeaderEv = false ∧ e.isDecodeEv = false ∧ e.isPublishEv = false := by
  cases e <;> simp [Event.isLogEv, Event.isHeaderEv, Event.isDecodeEv, Event.isPublishEv] at h ⊢

lemma headersOf_eq_nil_of (t : List Event) (h : ∀ e ∈ t, e.isHeaderEv = false) :
    headersOf t = [] := by
  rw [headersOf, List.filterMap_eq_nil_iff]
  intro e he
  have he' := h e he
  cases e <;> simp [Event.isHeaderEv] at he' ⊢

lemma decodesOf_eq_nil_of (t : List Event) (h : ∀ e ∈ t, e.isDecodeEv = false) :
    decodesOf t = [] := by
  rw [decodesOf, List.filterMap_eq_nil_iff]
  intro e he
  have he' := h e he
  cases e <;> simp [Event.isDecodeEv] at he' ⊢

lemma takeWhile_append_all (pr : Event → Bool) (l1 l2 : List Event)
    (h : ∀ a ∈ l1, pr a = true) :
    (l1 ++ l2).takeWhile pr = l1 ++ l2.takeWhile pr := by
  induction l1 with
  | nil => simp
  | cons a l ih =>
    have ha := h a (by simp)
    simp only [List.cons_append, List.takeWhile_cons, ha, if_true]
    rw [ih (fun b hb => h b (by simp [hb]))]

/-- Shape of the iteration that processes the first accepted
(keyframe-flagged) packet: after the optional gap log it submits the
packet's `header` bytes to the codec, then its `data`, and the remaining
events of the iteration contain no further header or data submission. -/
lemma step3_first_key (W H : Nat) (d : Bool) (s : StreamState) (pk : Packet)
    (hseen : s.seen_iframe = false) (hk : isKey pk = true) :
    ∃ tail : List Event,
      (decoderStep3 W H d s pk).2 =
        gapLog d s.last_idx pk ++
          Event.submitHeader pk.header :: Event.decodeData pk.data :: tail ∧
      (∀ e ∈ tail, e.isHeaderEv = false ∧ e.isDecodeEv = false) ∧
      ((∃ s2, (decoderStep3 W H d s pk).1 = Outcome.ok s2 ∧ s2.seen_iframe = true) ∨
        (decoderStep3 W H d s pk).1 = Outcome.aborted AbortKind.assertFailed) := by
  have hacc : s.seen_iframe = true ∨ isKey pk = true := Or.inr hk
  rcases hf : pk.decodedFrames with _ | ⟨f, _ | ⟨g, gs⟩⟩
  · refine ⟨if d then [Event.dropSurfaceLog] else [], ?_, ?_, ?_⟩
    · rw [decoderStep3_accept_nil W H d s pk hacc hf]
      simp [hseen]
    · intro e he
      rcases hd : d with _ | _ <;> rw [hd] at he <;> simp at he
      subst he
      exact ⟨rfl, rfl⟩
    · rw [decoderStep3_accept_nil W H d s pk hacc hf]
      exact Or.inl ⟨_, rfl, rfl⟩
  · refine ⟨[Event.publish (packFrame W H f) s.cnt ((s.time_q ++ [pk.recvMono]).headD 0) pk.pubMono,
             Event.forwardDisplay (packFrame W H f) pk.wallTime], ?_, ?_, ?_⟩
    · rw [decoderStep3_accept_one W H d s pk f hacc hf]
      simp [hseen]
    · intro e he
      simp only [List.mem_cons, List.mem_singleton, List.not_mem_nil, or_false] at he
      rcases he with he | he <;> subst he <;> exact ⟨rfl, rfl⟩
    · rw [decoderStep3_accept_one W H d s pk f hacc hf]
      exact Or.inl ⟨_, rfl, rfl⟩
  · refine ⟨[], ?_, by simp, ?_⟩
    · rw [decoderStep3_accept_many W H d s pk f g gs hacc hf]
      simp [hseen]
    · refine Or.inr ?_
      rw [decoderStep3_accept_many W H d s pk f g gs hacc hf]

/-- Once `seen_iframe` is true the codec header is never submitted again. -/
lemma run3_headers_streaming (W H : Nat) (d : Bool) (ps : List Packet) :
    ∀ (s : StreamState), s.seen_iframe = true →
      headersOf (decoderRun3 W H d s ps).2 = [] := by
  induction ps with
  | nil =>
    intro s _
    simp [decoderRun3]
  | cons p ps ih =>
    intro s hseen
    rcases hf : p.decodedFrames with _ | ⟨f, _ | ⟨g, gs⟩⟩
    · rw [decoderRun3_cons_ok W H d s _ p ps _
        (decoderStep3_accept_nil W H d s p (Or.inl hseen) hf)]
      dsimp only
      simp only [headersOf_append, headersOf_gapLog, headersOf_cons_decode,
        headersOf_dropSurface_ite, hseen, Bool.not_true, List.nil_append]
      rw [ih _ rfl]
      simp
    · rw [decoderRun3_cons_ok W H d s _ p ps _
        (decoderStep3_accept_one W H d s p f (Or.inl hseen) hf)]
      dsimp only
      simp only [headersOf_append, headersOf_gapLog, headersOf_cons_decode,
        headersOf_cons_publish, headersOf_cons_forward, hseen, Bool.not_true,
        List.nil_append]
      rw [ih _ rfl]
      simp
    · rw [decoderRun3_cons_aborted W H d s p ps _ _
        (decoderStep3_accept_many W H d s p f g gs (Or.inl hseen) hf)]
      simp [hseen]

/-- Ordering facts about a trace of the form
`sync-wait logs ++ (gap log ++ header :: data :: tail) ++ streaming rest`. -/
lemma sync_gating_core (t1 gl tail t2 : List Event) (pk : Packet)
    (h1 : ∀ e ∈ t1, e.isLogEv = true)
    (hgl : ∀ e ∈ gl, e.isLogEv = true)
    (htail : ∀ e ∈ tail, e.isHeaderEv = false ∧ e.isDecodeEv = false)
    (ht2 : headersOf t2 = []) :
    headersOf (t1 ++ (gl ++ Event.submitHeader pk.header ::
        Event.decodeData pk.data :: tail) ++ t2) = [pk.header] ∧
    (((t1 ++ (gl ++ Event.submitHeader pk.header ::
        Event.decodeData pk.data :: tail) ++ t2).takeWhile
        fun e => !e.isHeaderEv).countP (fun e => e.isDecodeEv || e.isPublishEv) = 0) ∧
    1 ≤ ((t1 ++ (gl ++ Event.submitHeader pk.header ::
        Event.decodeData pk.data :: tail) ++ t2).takeWhile
        fun e => !e.isPublishEv).countP Event.isDecodeEv ∧
    (decodesOf (t1 ++ (gl ++ Event.submitHeader pk.header ::
        Event.decodeData pk.data :: tail) ++ t2)).head? = some pk.data := by
  have h1h : ∀ e ∈ t1, e.isHeaderEv = false := fun e he => (log_not_core e (h1 e he)).1
  have h1d : ∀ e ∈ t1, e.isDecodeEv = false := fun e he => (log_not_core e (h1 e he)).2.1
  have h1p : ∀ e ∈ t1, e.isPublishEv = false := fun e he => (log_not_core e (h1 e he)).2.2
  have hglh : ∀ e ∈ gl, e.isHeaderEv = false := fun e he => (log_not_core e (hgl e he)).1
  have hgld : ∀ e ∈ gl, e.isDecodeEv = false := fun e he => (log_not_core e (hgl e he)).2.1
  have hglp : ∀ e ∈ gl, e.isPublishEv = false := fun e he => (log_not_core e (hgl e he)).2.2
  refine ⟨?_, ?_, ?_, ?_⟩
  · rw [headersOf_append, headersOf_append, headersOf_eq_nil_of t1 h1h,
      headersOf_append, headersOf_eq_nil_of gl hglh, headersOf_cons_header,
      headersOf_cons_decode, headersOf_eq_nil_of tail (fun e he => (htail e he).1), ht2]
    rfl
  · rw [List.append_assoc, List.append_assoc,
      takeWhile_append_all _ t1 _ (fun a ha => by simp [h1h a ha]),
      takeWhile_append_all _ gl _ (fun a ha => by simp [hglh a ha])]
    have e1 : List.takeWhile (fun e => !Event.isHeaderEv e)
        (Event.submitHeader pk.header :: Event.decodeData pk.data :: tail ++ t2) = [] := by
      simp [Event.isHeaderEv]
    rw [e1, List.append_nil, List.countP_append]
    rw [countP_eq_zero_of t1 _ (fun e he => by simp [h1d e he, h1p e he]),
      countP_eq_zero_of gl _ (fun e he => by simp [hgld e he, hglp e he])]
  · rw [List.append_assoc, List.append_assoc,
      takeWhile_append_all _ t1 _ (fun a ha => by simp [h1p a ha]),
      takeWhile_append_all _ gl _ (fun a ha => by simp [hglp a ha])]
    have e2 : List.takeWhile (fun e => !Event.isPublishEv e)
        (Event.submitHeader pk.header :: Event.decodeData pk.data :: tail ++ t2) =
        Event.submitHeader pk.header :: Event.decodeData pk.data ::
          List.takeWhile (fun e => !Event.isPublishEv e) (tail ++ t2) := by
      simp [Event.isPublishEv]
    rw [e2]
    simp only [List.countP_append, List.countP_cons]
    simp [Event.isDecodeEv]
    omega
  · rw [decodesOf_append, decodesOf_append, decodesOf_eq_nil_of t1 h1d,
      decodesOf_append, decodesOf_eq_nil_of gl hgld, decodesOf_cons_header,
      decodesOf_cons_decode]
    rfl

/-- C1: with `pre` the packets before the first keyframe-flagged packet
`pk`, no publish happens while processing `pre` (those packets are
discarded); over the whole run the codec header is submitted exactly once,
namely `pk.header`; no data decode or publish precedes that header
submission; at least one data decode precedes the first publish; and the
first data submitted to the codec is `pk.data`. -/
theorem sync_gating (W H : Nat) (d : Bool) (pre rest : List Packet) (pk : Packet)
    (hpre : ∀ p ∈ pre, isKey p = false) (hk : isKey pk = true) :
    (decoderRun3 W H d initState pre).2.countP Event.isPublishEv = 0 ∧
    headersOf (decoderRun3 W H d initState (pre ++ pk :: rest)).2 = [pk.header] ∧
    (((decoderRun3 W H d initState (pre ++ pk :: rest)).2.takeWhile
        fun e => !e.isHeaderEv).countP (fun e => e.isDecodeEv || e.isPublishEv) = 0) ∧
    1 ≤ ((decoderRun3 W H d initState (pre ++ pk :: rest)).2.takeWhile
        fun e => !e.isPublishEv).countP Event.isDecodeEv ∧
    (decodesOf (decoderRun3 W H d initState (pre ++ pk :: rest)).2).head? =
      some pk.data := by
  have hsync := run3_sync_skip W H d initState pre rfl hpre
  refine ⟨countP_eq_zero_of _ _ (fun e he => (log_not_core e (hsync.2 e he)).2.2), ?_⟩
  set s1 : StreamState := { initState with last_idx := lastIdAfter initState.last_idx pre }
    with hs1
  have hx : decoderRun3 W H d initState pre =
      (Outcome.ok s1, (decoderRun3 W H d initState pre).2) := by
    rw [← hsync.1]
  have happ := decoderRun3_append_ok W H d initState s1 pre (pk :: rest) _ hx
  obtain ⟨tail, htail_eq, htail_prop, houtcome⟩ := step3_first_key W H d s1 pk rfl hk
  cases hstep : decoderStep3 W H d s1 pk with
  | mk o evk =>
    rw [hstep] at htail_eq houtcome
    dsimp only at htail_eq houtcome
    cases o with
    | ok s2 =>
      have hseen2 : s2.seen_iframe = true := by
        rcases houtcome with ⟨s2', h1, h2⟩ | h1
        · injection h1 with h1'
          rw [h1']
          exact h2
        · exact absurd h1 (by simp)
      have hcons := decoderRun3_cons_ok W H d s1 s2 pk rest evk hstep
      rw [happ]
      dsimp only
      rw [hcons]
      dsimp only
      rw [htail_eq, ← List.append_assoc]
      exact sync_gating_core (decoderRun3 W H d initState pre).2
        (gapLog d s1.last_idx pk) tail (decoderRun3 W H d s2 rest).2 pk
        hsync.2 (gapLog_log d s1.last_idx pk) htail_prop
        (run3_headers_streaming W H d rest s2 hseen2)
    | aborted k =>
      have hcons := decoderRun3_cons_aborted W H d s1 pk rest k evk hstep
      rw [happ]
      dsimp only
      rw [hcons]
      dsimp only
      rw [htail_eq]
      have hcore := sync_gating_core (decoderRun3 W H d initState pre).2
        (gapLog d s1.last_idx pk) tail [] pk hsync.2 (gapLog_log d s1.last_idx pk)
        htail_prop rfl
      rw [List.append_nil] at hcore
      exact hcore

theorem sync_gating_witness :
    (∀ p ∈ [wpkt0], isKey p = false) ∧
    isKey wpkt1 = true ∧
    ((decoderRun3 2 2 false initState [wpkt0]).2.countP Event.isPublishEv = 0 ∧
     headersOf (decoderRun3 2 2 false initState ([wpkt0] ++ wpkt1 :: [wpkt2, wpkt3])).2 =
       [wpkt1.header] ∧
     (((decoderRun3 2 2 false initState ([wpkt0] ++ wpkt1 :: [wpkt2, wpkt3])).2.takeWhile
        fun e => !e.isHeaderEv).countP (fun e => e.isDecodeEv || e.isPublishEv) = 0) ∧
     1 ≤ ((decoderRun3 2 2 false initState ([wpkt0] ++ wpkt1 :: [wpkt2, wpkt3])).2.takeWhile
        fun e => !e.isPublishEv).countP Event.isDecodeEv ∧
     (decodesOf (decoderRun3 2 2 false initState ([wpkt0] ++ wpkt1 :: [wpkt2, wpkt3])).2).head? =
       some wpkt1.data) :=
  ⟨by decide, by decide,
   sync_gating 2 2 false [wpkt0] [wpkt2, wpkt3] wpkt1 (by decide) (by decide)⟩
